import Mathlib

/-!
Verification of the concurrent PDF-acquisition pipeline of
`dataset/download_s3.py` (thread-based variant) and
`dataset/async_download_s3.py` (asyncio variant).

The pipeline state (the "dedup ledger"), the archive locator, the token
filter, the language classifier, the fetcher and the persistence code are
shallowly embedded as executable Lean definitions, and the spec's claims
about them are settled as theorems below the definitions.
-/

namespace PdfPipeline

/-! ### Configuration constants (download_s3.py lines 20-38) -/

def BASE_URL : String :=
  "https://digitalcorpora.s3.amazonaws.com/corpora/files/CC-MAIN-2021-31-PDF-UNTRUNCATED/"

def TARGET_PDF_COUNT : Nat := 50000

def MIN_TOKENS : Nat := 1000

def MAX_TOKENS : Nat := 80000

def TOTAL_ZIP_FILES : Nat := 7933

def TEMP_ZIP_DOWNLOAD_DIR : String := "/dev/shm/temp_zip_processing"

/-! Async-variant configuration (async_download_s3.py lines 21-30): same locator
logic, different token bounds and staging directory. -/

def asyncMIN_TOKENS : Nat := 1500

def asyncMAX_TOKENS : Nat := 50000

/-! ### Archive locator (download_s3.py lines 75-85; async variant lines 73-80)

Python's `f"{n:04d}"` renders `n` in decimal, left-padded with zeros to a
minimum width of 4.  We embed it as the decimal digit list (most significant
first) padded with zeros, mapped to ASCII digit characters. -/

/-- Decimal digits of `n`, most significant first (`Nat.digits` is little-endian). -/
def decimalDigits (n : Nat) : List Nat := (Nat.digits 10 n).reverse

/-- Python `f"{n:04d}"` as a digit list: left-pad the decimal digits of `n`
with zeros to width 4 (numbers with more than 4 digits are not truncated). -/
def pad4 (n : Nat) : List Nat :=
  List.replicate (4 - (decimalDigits n).length) 0 ++ decimalDigits n

/-- ASCII character of a decimal digit. -/
def digitChar (d : Nat) : Char := Char.ofNat (48 + d)

/-- Python `f"{n:04d}"` as a string. -/
def pad4Str (n : Nat) : String := String.mk ((pad4 n).map digitChar)

/-- `zip_filename_short = f"{zip_num_int:04d}.zip"` (download_s3.py line 79). -/
def zip_filename_short (n : Nat) : String := pad4Str n ++ ".zip"

/-- `get_zip_url_and_local_path` (download_s3.py lines 75-85; textually identical
in async_download_s3.py lines 73-80 up to the staging directory constant).
Returns `(full_zip_url, local_download_path)`. -/
def get_zip_url_and_local_path (zip_num_int : Nat) : String × String :=
  let zip_group_start := (zip_num_int / 1000) * 1000
  let zip_group_end := zip_group_start + 999
  let zip_subdir_path := "zipfiles/" ++ pad4Str zip_group_start ++ "-" ++ pad4Str zip_group_end ++ "/"
  let full_zip_url := BASE_URL ++ zip_subdir_path ++ zip_filename_short zip_num_int
  let local_download_path := TEMP_ZIP_DOWNLOAD_DIR ++ "/" ++ zip_filename_short zip_num_int
  (full_zip_url, local_download_path)

/-! #### Injectivity of the padded decimal rendering -/

lemma ofDigits_replicate_zero (b k : Nat) : Nat.ofDigits b (List.replicate k 0) = 0 := by
  induction k with
  | zero => simp [Nat.ofDigits]
  | succ k ih => simp [List.replicate_succ, Nat.ofDigits_cons, ih]

/-- Reading the padded digit list back (least significant first) recovers `n`. -/
lemma ofDigits_pad4_reverse (n : Nat) : Nat.ofDigits 10 (pad4 n).reverse = n := by
  unfold pad4 decimalDigits
  rw [List.reverse_append, List.reverse_reverse, List.reverse_replicate]
  rw [Nat.ofDigits_append, Nat.ofDigits_digits, ofDigits_replicate_zero]
  simp

lemma pad4_inj {m n : Nat} (h : pad4 m = pad4 n) : m = n := by
  have h2 := congrArg (fun l => Nat.ofDigits 10 l.reverse) h
  simpa [ofDigits_pad4_reverse] using h2

lemma pad4_lt_ten {n d : Nat} (hd : d ∈ pad4 n) : d < 10 := by
  unfold pad4 decimalDigits at hd
  rcases List.mem_append.1 hd with h | h
  · have := List.eq_of_mem_replicate h
    omega
  · exact Nat.digits_lt_base (by norm_num) (List.mem_reverse.1 h)

lemma digitChar_inj {a b : Nat} (ha : a < 10) (hb : b < 10)
    (h : digitChar a = digitChar b) : a = b := by
  interval_cases a <;> interval_cases b <;> revert h <;> decide

lemma map_digitChar_inj {l1 : List Nat} : ∀ {l2 : List Nat},
    (∀ d ∈ l1, d < 10) → (∀ d ∈ l2, d < 10) →
    l1.map digitChar = l2.map digitChar → l1 = l2 := by
  induction l1 with
  | nil =>
    intro l2 _ _ h
    cases l2 <;> simp_all
  | cons a l1 ih =>
    intro l2 h1 h2 h
    cases l2 with
    | nil => simp at h
    | cons b l2 =>
      simp only [List.map_cons, List.cons.injEq] at h
      have hab : a = b := digitChar_inj (h1 a (by simp)) (h2 b (by simp)) h.1
      have htl : l1 = l2 :=
        ih (fun d hd => h1 d (by simp [hd])) (fun d hd => h2 d (by simp [hd])) h.2
      simp [hab, htl]

lemma pad4Str_inj {m n : Nat} (h : pad4Str m = pad4Str n) : m = n := by
  have hdata := congrArg String.data h
  simp only [pad4Str] at hdata
  exact pad4_inj (map_digitChar_inj (fun d hd => pad4_lt_ten hd)
    (fun d hd => pad4_lt_ten hd) hdata)

/-- The local staging path determines the archive index. -/
lemma local_path_inj {m n : Nat}
    (h : (get_zip_url_and_local_path m).2 = (get_zip_url_and_local_path n).2) : m = n := by
  have hdata := congrArg String.data h
  simp only [get_zip_url_and_local_path, zip_filename_short, String.data_append,
    List.append_assoc] at hdata
  have h1 := List.append_cancel_left (List.append_cancel_left hdata)
  have h2 := List.append_cancel_right h1
  exact pad4Str_inj (congrArg String.mk h2)

/-! ### Ledger data model -/

/-- One record of the JSON ledger: the dict built at download_s3.py lines
187-192 (and async_download_s3.py lines 145-150). -/
structure Entry where
  filename : String
  text : String
  token_count : Nat
  language : String
  deriving DecidableEq

/-- Python `set.add` on a set modelled as a duplicate-free list: adding an
element already present is a no-op. -/
def setAdd (s : List String) (x : String) : List String :=
  if x ∈ s then s else s ++ [x]

/-- The process-wide shared state (download_s3.py lines 53-58):
`collected_data_for_json`, `already_found_pdf_names`,
`valid_pdfs_found_count`, with the configured target carried alongside. -/
structure LedgerState where
  collected : List Entry
  names : List String
  count : Nat
  target : Nat
  deriving DecidableEq

/-- The name set built by the startup load loop (`for item in existing_data:
already_found_pdf_names.add(item["filename"])`). -/
def loadNames (existing : List Entry) : List String :=
  existing.foldl (fun s it => setAdd s it.filename) []

/-- Startup load (download_s3.py lines 60-69; async_download_s3.py lines
55-71): the pre-existing JSON file — modelled as its parsed list of entries —
is extended into `collected_data_for_json`, every filename is added to
`already_found_pdf_names`, and `valid_pdfs_found_count` is set to the size of
the name set. -/
def loadState (existing : List Entry) (target : Nat) : LedgerState :=
  let names := loadNames existing
  { collected := existing, names := names, count := names.length, target := target }

/-- The acceptance step of the async orchestrator (async_download_s3.py lines
259-273).  It runs sequentially on the event loop: once the target is reached
the remaining results are dropped (line 261), an entry whose filename is
already known is skipped (line 265), otherwise it is appended, its name
recorded and the counter incremented (lines 266-268). -/
def acceptAsync (s : LedgerState) (e : Entry) : LedgerState :=
  if s.target ≤ s.count then s
  else if e.filename ∈ s.names then s
  else { s with collected := s.collected ++ [e],
                names := setAdd s.names e.filename,
                count := s.count + 1 }

/-! ### Thread-variant interleaving model (download_s3.py `process_zip_file`)

Each worker thread holding one extracted in-zip PDF candidate executes, in
order, three atomic program points of `process_zip_file` (lines 161-200): the
lock-guarded target check (lines 163-166), the UNLOCKED membership test on
`already_found_pdf_names` (line 168), and — after the pure extraction and
token filtering (lines 171-183) — the lock-guarded acceptance block (lines
185-200), which re-checks the count but not membership.  Steps of different
threads interleave arbitrarily; each modelled step is atomic (it runs either
under `data_lock` or as a single bytecode-atomic read). -/

inductive TaskPC
  | pcStart
  | pcChecked
  | pcPassed
  | pcDone
  deriving DecidableEq

structure Task where
  entry : Entry
  pc : TaskPC
  deriving DecidableEq

structure SysState where
  ledger : LedgerState
  tasks : List Task
  deriving DecidableEq

/-- The lock-guarded acceptance block (download_s3.py lines 185-200): it
re-checks `valid_pdfs_found_count < TARGET_PDF_COUNT` under the lock, then
appends the record, adds the name and increments the counter. -/
def acceptThread (s : LedgerState) (e : Entry) : LedgerState :=
  if s.count < s.target then
    { s with collected := s.collected ++ [e],
             names := setAdd s.names e.filename,
             count := s.count + 1 }
  else s

/-- One atomic step of a single worker task. -/
def stepTask (led : LedgerState) (t : Task) : LedgerState × Task :=
  match t.pc with
  | .pcStart =>
      if led.target ≤ led.count then (led, { t with pc := .pcDone })
      else (led, { t with pc := .pcChecked })
  | .pcChecked =>
      if t.entry.filename ∈ led.names then (led, { t with pc := .pcDone })
      else if MIN_TOKENS ≤ t.entry.token_count ∧ t.entry.token_count ≤ MAX_TOKENS then
        (led, { t with pc := .pcPassed })
      else (led, { t with pc := .pcDone })
  | .pcPassed => (acceptThread led t.entry, { t with pc := .pcDone })
  | .pcDone => (led, t)

/-- Execute the next atomic step of task `i` (no-op on an out-of-range index). -/
def stepSys (s : SysState) (i : Nat) : SysState :=
  match s.tasks[i]? with
  | none => s
  | some t =>
      let r := stepTask s.ledger t
      { ledger := r.1, tasks := s.tasks.set i r.2 }

/-- Run a schedule: a list of task indices, executed left to right. -/
def runSched (s : SysState) (sched : List Nat) : SysState :=
  sched.foldl stepSys s

/-! ### Extraction, token filter and language classification -/

/-- One document inside a zip, carrying the outcome of
`extract_text_and_count_tokens_from_pdf_data` (lines 113-131 resp. 91-104):
`none` models the fitz failure path `(None, 0)`; otherwise the extracted text
with its token count (whitespace-only text arrives as `("", 0)`). -/
structure Candidate where
  filename : String
  extracted : Option (String × Nat)
  deriving DecidableEq

/-- `detect_language` (download_s3.py lines 133-144; async_download_s3.py
lines 106-113, there named `detect_language_sync`).  The underlying
`langdetect.detect` call is an oracle `det` that either returns a code
(`Except.ok`) or raises (`Except.error`).  The whole body runs inside
`try/except Exception`, so anything raised is caught and mapped to
`"unknown"`. -/
def detect_language (det : String → Except String String) (text : String) : String :=
  match (if 50 < text.length then det text
         else Except.ok "too_short_for_detection") with
  | Except.ok lang => lang
  | Except.error _ => "unknown"

/-- The per-candidate body of `process_zip_file_sync` (async_download_s3.py
lines 129-150): skip fitz failures, keep a candidate only when its token
count lies within the configured window, tagging it with its language. -/
def processOne (det : String → Except String String)
    (current_min_tokens current_max_tokens : Nat) (c : Candidate) : Option Entry :=
  match c.extracted with
  | none => none
  | some (text, token_count) =>
      if current_min_tokens ≤ token_count ∧ token_count ≤ current_max_tokens then
        some { filename := c.filename, text := text, token_count := token_count,
               language := detect_language det text }
      else none

/-- `process_zip_file_sync` (async_download_s3.py lines 115-161): the list of
accepted-for-forwarding records of one zip. -/
def process_zip_file_sync (det : String → Except String String)
    (current_min_tokens current_max_tokens : Nat)
    (cands : List Candidate) : List Entry :=
  cands.filterMap (processOne det current_min_tokens current_max_tokens)

/-! ### Persistence: the final save and its filesystem behaviour -/

/-- `collected_data_for_json.sort(key=lambda x: x['filename'])` (download_s3.py
line 328; async_download_s3.py line 315): a stable sort by filename. -/
def sortLedger (l : List Entry) : List Entry :=
  List.insertionSort (fun a b => a.filename ≤ b.filename) l

/-- Decimal rendering of a number, as `json.dump` prints it. -/
def natStr (n : Nat) : String :=
  if n = 0 then "0" else String.mk ((decimalDigits n).map digitChar)

/-- Deterministic rendering of one ledger record, standing for the
`json.dump` encoding of the dict (the key order is fixed in the source). -/
def serializeEntry (e : Entry) : String :=
  "\x7b\"filename\": \"" ++ e.filename ++ "\", \"text\": \"" ++ e.text ++
    "\", \"token_count\": " ++ natStr e.token_count ++ ", \"language\": \"" ++
    e.language ++ "\"\x7d"

/-- Rendering of the whole JSON array written by the final save. -/
def serializeLedger (l : List Entry) : String :=
  "[" ++ String.intercalate ", " (l.map serializeEntry) ++ "]"

/-- Filesystem operations relevant to the final save. -/
inductive FsOp
  | truncate (path : String)
  | write (path : String) (content : String)
  | rename (src dst : String)
  deriving DecidableEq

/-- The final save (download_s3.py lines 322-331; async_download_s3.py lines
311-320): `open(db_path, 'w')` truncates the destination in place, then
`json.dump` writes the serialized sorted array into that same handle.  No
temporary file and no rename are involved. -/
def flushOps (path : String) (data : List Entry) : List FsOp :=
  [FsOp.truncate path, FsOp.write path (serializeLedger (sortLedger data))]

/-- Modelled from the spec: "write to a temp path then rename" — the trace
discipline the spec claims the flush follows: some path distinct from the
destination is written, and later renamed over the destination. -/
def atomicViaTempRename (ops : List FsOp) (dst : String) : Prop :=
  ∃ (tmp content : String) (i j : Nat), tmp ≠ dst ∧ i < j ∧
    ops[i]? = some (FsOp.write tmp content) ∧
    ops[j]? = some (FsOp.rename tmp dst)

/-! ### Archive fetcher (download_s3.py `download_zip`, lines 87-111) -/

/-- Observable outcome of one `download_zip` call: the returned value
(`some path` on success, `none` on failure), how many HTTP attempts were
issued, and whether a partial file was removed. -/
structure FetchResult where
  result : Option String
  attemptsMade : Nat
  partialRemoved : Bool
  deriving DecidableEq

/-- `download_zip` (download_s3.py lines 87-111).  The network is an oracle:
`fail k` says whether the k-th `requests.get` attempt would raise, and
`partialExists` whether a partial file is on disk when it does.  The body
issues exactly one `requests.get`; on an exception it removes any partial
file and returns `None` instead of propagating.  (The async variant's
`manage_one_zip`, lines 176-185, behaves the same: one attempt, cleanup,
an error flag instead of an exception.) -/
def download_zip (fail : Nat → Bool) (partialExists : Bool) (zip_idx : Nat) : FetchResult :=
  if fail 0 then
    { result := none, attemptsMade := 1, partialRemoved := partialExists }
  else
    { result := some (get_zip_url_and_local_path zip_idx).2,
      attemptsMade := 1, partialRemoved := false }

/-- Modelled from the spec: the retry policy the spec claims the fetcher
implements — up to `maxAttempts` attempts, succeeding at the first attempt
that does not fail. -/
def retryFetch (maxAttempts : Nat) (fail : Nat → Bool) (zip_idx : Nat) : Option String :=
  match maxAttempts with
  | 0 => none
  | k + 1 =>
      if fail 0 then retryFetch k (fun n => fail (n + 1)) zip_idx
      else some (get_zip_url_and_local_path zip_idx).2

/-! ### Whole-run composition (async variant) -/

/-- Accept a batch of processed results in discovery order. -/
def runAccepts (s : LedgerState) (results : List Entry) : LedgerState :=
  results.foldl acceptAsync s

/-- The parsed content of the file written by the final save after a whole
run: load the pre-existing file, accept each processed result in discovery
order, sort by filename, write. -/
def finalFile (existing : List Entry) (results : List Entry) : List Entry :=
  sortLedger (runAccepts (loadState existing TARGET_PDF_COUNT) results).collected

/-! ## Theorems for the claims -/

/-- C7: for every pair of distinct archive indices in `[0, TOTAL_ZIP_FILES)`,
the locator produces distinct local staging paths — the map from archive
index to local path is injective over the valid range, so two concurrent
fetches of different archives never write to the same filename. -/
theorem locator_local_path_injective (i j : Nat)
    (hi : i < TOTAL_ZIP_FILES) (hj : j < TOTAL_ZIP_FILES) (hij : i ≠ j) :
    (get_zip_url_and_local_path i).2 ≠ (get_zip_url_and_local_path j).2 :=
  fun h => hij (local_path_inj h)

theorem locator_local_path_injective_witness :
    (get_zip_url_and_local_path 0).2 ≠ (get_zip_url_and_local_path 1).2 :=
  locator_local_path_injective 0 1 (by decide) (by decide) (by decide)

/-- C10: the language classifier consults the detector only for texts
strictly longer than 50 characters; at exactly 50 characters or fewer it
returns the sentinel "too_short_for_detection" and the detector cannot
influence the result; a raising detector yields the sentinel "unknown"; and
on the success path the detector's code is returned — so the classifier is a
total function that never propagates an exception. -/
theorem detect_language_never_raises
    (det det2 : String → Except String String) (text : String) :
    (text.length ≤ 50 →
      detect_language det text = "too_short_for_detection" ∧
      detect_language det text = detect_language det2 text) ∧
    (∀ e, 50 < text.length → det text = Except.error e →
      detect_language det text = "unknown") ∧
    (∀ lang, 50 < text.length → det text = Except.ok lang →
      detect_language det text = lang) := by
  unfold detect_language
  refine ⟨fun h => ?_, fun e h he => ?_, fun lang h hl => ?_⟩
  · have h2 : ¬ (50 < text.length) := by omega
    simp [h2]
  · simp [h, he]
  · simp [h, hl]

theorem detect_language_never_raises_witness :
    detect_language (fun _ => Except.ok "en") "short text" = "too_short_for_detection" ∧
    detect_language (fun _ => Except.error "LangDetectException")
      "0123456789012345678901234567890123456789012345678901234567890" = "unknown" ∧
    detect_language (fun _ => Except.ok "en")
      "0123456789012345678901234567890123456789012345678901234567890" = "en" :=
  ⟨((detect_language_never_raises (fun _ => Except.ok "en")
      (fun _ => Except.error "other") "short text").1 (by decide)).1,
   (detect_language_never_raises (fun _ => Except.error "LangDetectException")
      (fun _ => Except.ok "en")
      "0123456789012345678901234567890123456789012345678901234567890").2.1
      "LangDetectException" (by decide) rfl,
   (detect_language_never_raises (fun _ => Except.ok "en")
      (fun _ => Except.error "other")
      "0123456789012345678901234567890123456789012345678901234567890").2.2
      "en" (by decide) rfl⟩

/-- C6 counterexample: on a transient failure (the first attempt fails, a
second would succeed) `download_zip` does not retry: it gives up after one
attempt and returns `None`, whereas the 3-attempt retry policy the claim
describes would have succeeded. -/
theorem download_zip_no_retry_counterexample :
    (download_zip (fun n => n == 0) true 7).result = none ∧
    (download_zip (fun n => n == 0) true 7).attemptsMade = 1 ∧
    retryFetch 3 (fun n => n == 0) 7 = some (get_zip_url_and_local_path 7).2 := by
  refine ⟨rfl, rfl, ?_⟩
  simp [retryFetch]

/-- C6 amended: the fetcher makes exactly one download attempt (no retry, no
backoff); when that attempt fails it removes any partial file that was left
behind and reports failure to the caller by returning `None` rather than
raising past the fetch boundary; when it succeeds it returns the local path. -/
theorem download_zip_single_attempt (fail : Nat → Bool) (partialExists : Bool) (zip_idx : Nat) :
    (download_zip fail partialExists zip_idx).attemptsMade = 1 ∧
    ((download_zip fail partialExists zip_idx).result = none ↔ fail 0 = true) ∧
    (download_zip fail partialExists zip_idx).partialRemoved = (fail 0 && partialExists) := by
  unfold download_zip
  cases h : fail 0 <;> simp [h]

/-- No flush trace ever contains a rename, hence none follows the
write-temp-then-rename discipline. -/
lemma flushOps_no_rename (path : String) (data : List Entry) (dst : String) :
    ¬ atomicViaTempRename (flushOps path data) dst := by
  rintro ⟨tmp, content, i, j, hne, hij, hi, hj⟩
  rcases j with _ | _ | j <;> simp [flushOps] at hj

/-- C5 counterexample: the final save of the collected ledger writes the
destination file in place — its filesystem trace contains no rename at all,
so it is not the write-to-temp-then-rename discipline the claim states. -/
theorem flush_not_atomic_counterexample :
    ¬ atomicViaTempRename
      (flushOps "data/collected_pdf_texts.json" [⟨"a.pdf", "text", 1000, "en"⟩])
      "data/collected_pdf_texts.json" :=
  flushOps_no_rename "data/collected_pdf_texts.json" [⟨"a.pdf", "text", 1000, "en"⟩]
    "data/collected_pdf_texts.json"

/-- C5 amended: the final save overwrites the destination in place — it
truncates the destination (`open(db_path, 'w')`) and then writes the
serialized, sorted JSON array directly to it; no temporary path is written
and no rename is performed, so an interruption mid-write can leave the
pre-existing file truncated or partially overwritten. -/
theorem flush_in_place (path : String) (data : List Entry) :
    flushOps path data =
      [FsOp.truncate path, FsOp.write path (serializeLedger (sortLedger data))] ∧
    ¬ atomicViaTempRename (flushOps path data) path :=
  ⟨rfl, flushOps_no_rename path data path⟩

/-! ### Saturation (C3) -/

lemma stepTask_saturated (led : LedgerState) (t : Task) (h : led.target ≤ led.count) :
    (stepTask led t).1 = led := by
  have h2 : ¬ led.count < led.target := by omega
  unfold stepTask acceptThread
  cases t.pc <;> simp [h, h2] <;> split <;> first | rfl | (split <;> rfl)

lemma stepSys_saturated (s : SysState) (i : Nat)
    (h : s.ledger.target ≤ s.ledger.count) : (stepSys s i).ledger = s.ledger := by
  unfold stepSys
  cases ht : s.tasks[i]? with
  | none => rfl
  | some t => simpa using stepTask_saturated s.ledger t h

lemma runSched_saturated (sched : List Nat) (s : SysState)
    (h : s.ledger.target ≤ s.ledger.count) : (runSched s sched).ledger = s.ledger := by
  induction sched generalizing s with
  | nil => rfl
  | cons i sched ih =>
    have hstep := stepSys_saturated s i h
    have := ih (stepSys s i) (by rw [hstep]; exact h)
    unfold runSched at this ⊢
    simp only [List.foldl_cons]
    rw [this, hstep]

/-- C3: in every ledger state whose accepted count has reached the target,
any further acceptance attempt leaves the ledger completely unchanged — the
async orchestrator's guarded acceptance branch returns the state as is, and
in the thread-based variant no schedule of worker steps can append a
document, add an identifier or increase the count. -/
theorem saturated_ledger_frozen (s : LedgerState) (e : Entry)
    (sys : SysState) (sched : List Nat)
    (hs : s.target ≤ s.count) (hsys : sys.ledger.target ≤ sys.ledger.count) :
    acceptAsync s e = s ∧ (runSched sys sched).ledger = sys.ledger := by
  refine ⟨?_, runSched_saturated sched sys hsys⟩
  unfold acceptAsync
  simp [hs]

theorem saturated_ledger_frozen_witness :
    acceptAsync ⟨[⟨"a.pdf", "t", 1000, "en"⟩], ["a.pdf"], 1, 1⟩ ⟨"b.pdf", "u", 2000, "en"⟩ =
      ⟨[⟨"a.pdf", "t", 1000, "en"⟩], ["a.pdf"], 1, 1⟩ ∧
    (runSched ⟨⟨[⟨"a.pdf", "t", 1000, "en"⟩], ["a.pdf"], 1, 1⟩,
        [⟨⟨"b.pdf", "u", 2000, "en"⟩, TaskPC.pcPassed⟩]⟩ [0, 0]).ledger =
      ⟨[⟨"a.pdf", "t", 1000, "en"⟩], ["a.pdf"], 1, 1⟩ :=
  saturated_ledger_frozen ⟨[⟨"a.pdf", "t", 1000, "en"⟩], ["a.pdf"], 1, 1⟩
    ⟨"b.pdf", "u", 2000, "en"⟩
    ⟨⟨[⟨"a.pdf", "t", 1000, "en"⟩], ["a.pdf"], 1, 1⟩,
      [⟨⟨"b.pdf", "u", 2000, "en"⟩, TaskPC.pcPassed⟩]⟩ [0, 0]
    (by decide) (by decide)

/-! ### The unlocked check-then-append race (C1, C2)

In download_s3.py the membership test on `already_found_pdf_names` (line 168)
runs outside `data_lock`, and the locked acceptance block (lines 185-196)
re-checks only `valid_pdfs_found_count`, never membership.  Two worker
threads that each hold a candidate with the same filename can therefore both
pass the membership test before either appends. -/

/-- C1: concrete interleaving of two `process_zip_file` tasks that both carry
a PDF named "a.pdf" (token count in range, target far away).  Schedule:
task 0 passes the target check and the membership test, then task 1 passes
both as well, then both execute the locked append — the final ledger holds
two entries with the same filename. -/
theorem thread_duplicate_filename_race :
    ((runSched
        ⟨⟨[], [], 0, TARGET_PDF_COUNT⟩,
          [⟨⟨"a.pdf", "text a", 1000, "en"⟩, TaskPC.pcStart⟩,
           ⟨⟨"a.pdf", "text a", 1000, "en"⟩, TaskPC.pcStart⟩]⟩
        [0, 0, 1, 1, 0, 1]).ledger.collected.map Entry.filename) =
      ["a.pdf", "a.pdf"] := by
  decide

/-- C2: the same unlocked check-then-append race breaks the size invariant:
after the duplicate acceptance the document list has two entries while the
identifier set has one (the second `set.add` was a no-op), so
`len(already_found_pdf_names) ≠ len(collected_data_for_json)`, and that
acceptance added a document without adding an identifier. -/
theorem thread_count_mismatch_race :
    ((runSched
        ⟨⟨[], [], 0, TARGET_PDF_COUNT⟩,
          [⟨⟨"b.pdf", "text b", 2000, "de"⟩, TaskPC.pcStart⟩,
           ⟨⟨"b.pdf", "text b", 2000, "de"⟩, TaskPC.pcStart⟩]⟩
        [1, 1, 0, 0, 1, 0]).ledger.collected.length = 2) ∧
    ((runSched
        ⟨⟨[], [], 0, TARGET_PDF_COUNT⟩,
          [⟨⟨"b.pdf", "text b", 2000, "de"⟩, TaskPC.pcStart⟩,
           ⟨⟨"b.pdf", "text b", 2000, "de"⟩, TaskPC.pcStart⟩]⟩
        [1, 1, 0, 0, 1, 0]).ledger.names.length = 1) := by
  constructor <;> decide

/-! ### The token filter and the final file (C4) -/

lemma mem_sortLedger {e : Entry} {l : List Entry} : e ∈ sortLedger l ↔ e ∈ l :=
  (List.perm_insertionSort _ l).mem_iff

lemma mem_acceptAsync_collected {s : LedgerState} {r e : Entry}
    (h : e ∈ (acceptAsync s r).collected) : e ∈ s.collected ∨ e = r := by
  unfold acceptAsync at h
  split at h
  · exact Or.inl h
  split at h
  · exact Or.inl h
  · simp only [List.mem_append, List.mem_singleton] at h
    exact h

lemma mem_runAccepts {rs : List Entry} {s : LedgerState} {e : Entry}
    (h : e ∈ (runAccepts s rs).collected) : e ∈ s.collected ∨ e ∈ rs := by
  induction rs generalizing s with
  | nil => exact Or.inl h
  | cons r rs ih =>
    rcases ih (s := acceptAsync s r) h with h1 | h1
    · rcases mem_acceptAsync_collected h1 with h2 | h2
      · exact Or.inl h2
      · exact Or.inr (by simp [h2])
    · exact Or.inr (by simp [h1])

lemma process_token_bound {det : String → Except String String}
    {minT maxT : Nat} {cands : List Candidate} {e : Entry}
    (h : e ∈ process_zip_file_sync det minT maxT cands) :
    minT ≤ e.token_count ∧ e.token_count ≤ maxT := by
  unfold process_zip_file_sync at h
  rcases List.mem_filterMap.1 h with ⟨c, _, hc⟩
  unfold processOne at hc
  rcases hx : c.extracted with _ | ⟨text, tc⟩
  · simp [hx] at hc
  · simp only [hx] at hc
    split at hc
    next hrange =>
      cases hc
      simpa using hrange
    next => simp at hc

/-- A thread task whose filter step has been passed carries an in-range
token count. -/
def TasksFiltered (ts : List Task) : Prop :=
  ∀ t ∈ ts, t.pc = TaskPC.pcPassed →
    MIN_TOKENS ≤ t.entry.token_count ∧ t.entry.token_count ≤ MAX_TOKENS

lemma stepTask_passed {led : LedgerState} {t : Task}
    (h : (stepTask led t).2.pc = TaskPC.pcPassed) :
    MIN_TOKENS ≤ (stepTask led t).2.entry.token_count ∧
      (stepTask led t).2.entry.token_count ≤ MAX_TOKENS := by
  obtain ⟨ent, pc⟩ := t
  cases pc <;> simp only [stepTask] at h ⊢
  case pcStart => split at h <;> simp at h
  case pcChecked =>
    split at h
    · simp at h
    next hmem =>
      split at h
      next hrange =>
        simp only [if_neg hmem, if_pos hrange]
        simpa using hrange
      next => simp at h
  case pcPassed => simp at h
  case pcDone => simp at h

lemma stepTask_mem_collected {led : LedgerState} {t : Task} {e : Entry}
    (he : e ∈ (stepTask led t).1.collected) :
    e ∈ led.collected ∨ (e = t.entry ∧ t.pc = TaskPC.pcPassed) := by
  obtain ⟨ent, pc⟩ := t
  cases pc <;> simp only [stepTask] at he
  case pcStart => split at he <;> exact Or.inl he
  case pcChecked =>
    split at he
    · exact Or.inl he
    · split at he <;> exact Or.inl he
  case pcPassed =>
    unfold acceptThread at he
    split at he
    · simp only [List.mem_append, List.mem_singleton] at he
      rcases he with h1 | h1
      · exact Or.inl h1
      · exact Or.inr ⟨h1, rfl⟩
    · exact Or.inl he
  case pcDone => exact Or.inl he

lemma stepSys_tasksFiltered (s : SysState) (i : Nat) (hP : TasksFiltered s.tasks) :
    TasksFiltered (stepSys s i).tasks := by
  unfold stepSys
  cases ht : s.tasks[i]? with
  | none => exact hP
  | some t =>
    intro t2 ht2 hpc
    rcases List.mem_or_eq_of_mem_set ht2 with h | h
    · exact hP t2 h hpc
    · subst h
      exact stepTask_passed hpc

lemma stepSys_mem_collected {s : SysState} {i : Nat} {e : Entry}
    (hP : TasksFiltered s.tasks) (he : e ∈ (stepSys s i).ledger.collected) :
    e ∈ s.ledger.collected ∨
      (MIN_TOKENS ≤ e.token_count ∧ e.token_count ≤ MAX_TOKENS) := by
  unfold stepSys at he
  cases ht : s.tasks[i]? with
  | none => rw [ht] at he; exact Or.inl he
  | some t =>
    rw [ht] at he
    rcases stepTask_mem_collected he with h | ⟨rfl, hpc⟩
    · exact Or.inl h
    · exact Or.inr (hP t (List.getElem?_mem ht) hpc)

lemma runSched_mem_collected {sched : List Nat} {s : SysState} {e : Entry}
    (hP : TasksFiltered s.tasks) (he : e ∈ (runSched s sched).ledger.collected) :
    e ∈ s.ledger.collected ∨
      (MIN_TOKENS ≤ e.token_count ∧ e.token_count ≤ MAX_TOKENS) := by
  induction sched generalizing s with
  | nil => exact Or.inl he
  | cons i sched ih =>
    rcases ih (s := stepSys s i) (stepSys_tasksFiltered s i hP) he with h | h
    · exact stepSys_mem_collected hP h
    · exact Or.inr h

/-- C4 counterexample: a pre-existing ledger file holding an entry whose
token count 5 lies strictly below `MIN_TOKENS` is loaded at startup and
written back by the final save, so the out-of-range document IS present in
the final persisted ledger. -/
theorem preloaded_out_of_range_survives :
    (5 < MIN_TOKENS) ∧
    (⟨"old.pdf", "t", 5, "en"⟩ : Entry) ∈ finalFile [⟨"old.pdf", "t", 5, "en"⟩] [] := by
  constructor <;> decide

/-- C4 amended: no document whose computed token count lies outside
`[MIN_TOKENS, MAX_TOKENS]` is ever ADDED to the ledger during a run — in the
async pipeline every entry of the final file either comes from the
pre-existing loaded file or lies within the window, whatever the processing
order; and in the thread-based variant, from any state whose tasks have not
yet passed the filter, every schedule only ever appends in-window entries.
(Entries already present in the loaded pre-existing file are kept without
being re-filtered — the startup load does not check token bounds.) -/
theorem out_of_range_never_added
    (det : String → Except String String) (existing : List Entry)
    (candss : List (List Candidate)) (e : Entry)
    (sys : SysState) (sched : List Nat) (e2 : Entry)
    (he : e ∈ finalFile existing
      ((candss.map (process_zip_file_sync det MIN_TOKENS MAX_TOKENS)).join))
    (hstart : ∀ t ∈ sys.tasks, t.pc = TaskPC.pcStart)
    (he2 : e2 ∈ (runSched sys sched).ledger.collected) :
    (e ∈ existing ∨ (MIN_TOKENS ≤ e.token_count ∧ e.token_count ≤ MAX_TOKENS)) ∧
    (e2 ∈ sys.ledger.collected ∨
      (MIN_TOKENS ≤ e2.token_count ∧ e2.token_count ≤ MAX_TOKENS)) := by
  constructor
  · unfold finalFile at he
    rcases mem_runAccepts (mem_sortLedger.1 he) with h | h
    · exact Or.inl h
    · rcases List.mem_join.1 h with ⟨res, hres, hin⟩
      rcases List.mem_map.1 hres with ⟨cands, _, rfl⟩
      exact Or.inr (process_token_bound hin)
  · refine runSched_mem_collected ?_ he2
    intro t ht hpc
    rw [hstart t ht] at hpc
    cases hpc

theorem out_of_range_never_added_witness :
    ((⟨"c.pdf", "x", 2000, "too_short_for_detection"⟩ : Entry) ∈ [] ∨
      (MIN_TOKENS ≤ 2000 ∧ 2000 ≤ MAX_TOKENS)) ∧
    ((⟨"d.pdf", "y", 3000, "en"⟩ : Entry) ∈
        ([] : List Entry) ∨ (MIN_TOKENS ≤ 3000 ∧ 3000 ≤ MAX_TOKENS)) :=
  out_of_range_never_added (fun _ => Except.ok "en") []
    [[⟨"c.pdf", some ("x", 2000)⟩]] ⟨"c.pdf", "x", 2000, "too_short_for_detection"⟩
    ⟨⟨[], [], 0, TARGET_PDF_COUNT⟩, [⟨⟨"d.pdf", "y", 3000, "en"⟩, TaskPC.pcStart⟩]⟩
    [0, 0, 0] ⟨"d.pdf", "y", 3000, "en"⟩
    (by decide) (by decide) (by decide)

/-! ### Determinism of the sorted output (C8) -/

instance : IsTotal Entry (fun a b => a.filename ≤ b.filename) :=
  ⟨fun a b => le_total a.filename b.filename⟩

instance : IsTrans Entry (fun a b => a.filename ≤ b.filename) :=
  ⟨fun _ _ _ hab hbc => le_trans hab hbc⟩

instance : IsAntisymm Entry (fun a b => a.filename < b.filename) :=
  ⟨fun _ _ h1 h2 => absurd h1 (lt_asymm h2)⟩

lemma sortLedger_sorted_lt {l : List Entry} (hnd : (l.map Entry.filename).Nodup) :
    List.Sorted (fun a b => a.filename < b.filename) (sortLedger l) := by
  have hs : List.Sorted (fun a b => a.filename ≤ b.filename) (sortLedger l) :=
    List.sorted_insertionSort _ l
  have h1 : l.Pairwise (fun a b => a.filename ≠ b.filename) :=
    List.pairwise_map.1 hnd
  have hne : (sortLedger l).Pairwise (fun a b => a.filename ≠ b.filename) :=
    ((List.perm_insertionSort _ l).pairwise_iff (fun h => h.symm)).2 h1
  exact (hs.and hne).imp (fun h => lt_of_le_of_ne h.1 h.2)

lemma sortLedger_eq_of_perm {l1 l2 : List Entry} (hperm : l1.Perm l2)
    (hnd : (l1.map Entry.filename).Nodup) : sortLedger l1 = sortLedger l2 := by
  have hnd2 : (l2.map Entry.filename).Nodup := ((hperm.map Entry.filename).nodup_iff).1 hnd
  have hp : (sortLedger l1).Perm (sortLedger l2) :=
    (List.perm_insertionSort _ l1).trans (hperm.trans (List.perm_insertionSort _ l2).symm)
  exact List.eq_of_perm_of_sorted hp (sortLedger_sorted_lt hnd) (sortLedger_sorted_lt hnd2)

/-- C8: the persisted output is a function of the set of accepted documents
only — the final save sorts by filename before writing, so two runs that
accepted the same documents (same set, no duplicate filenames) produce
byte-identical serialized output regardless of the discovery order. -/
theorem flush_output_order_independent (l1 l2 : List Entry)
    (hperm : l1.Perm l2) (hnd : (l1.map Entry.filename).Nodup) :
    serializeLedger (sortLedger l1) = serializeLedger (sortLedger l2) := by
  rw [sortLedger_eq_of_perm hperm hnd]

theorem flush_output_order_independent_witness :
    serializeLedger (sortLedger
      [⟨"b.pdf", "tb", 1200, "en"⟩, ⟨"a.pdf", "ta", 1100, "de"⟩]) =
    serializeLedger (sortLedger
      [⟨"a.pdf", "ta", 1100, "de"⟩, ⟨"b.pdf", "tb", 1200, "en"⟩]) :=
  flush_output_order_independent
    [⟨"b.pdf", "tb", 1200, "en"⟩, ⟨"a.pdf", "ta", 1100, "de"⟩]
    [⟨"a.pdf", "ta", 1100, "de"⟩, ⟨"b.pdf", "tb", 1200, "en"⟩]
    (by decide) (by decide)

/-! ### Flush/load round trip (C9) -/

lemma mem_setAdd {s : List String} {x y : String} :
    y ∈ setAdd s x ↔ y ∈ s ∨ y = x := by
  unfold setAdd
  split
  next hx =>
    refine ⟨Or.inl, ?_⟩
    rintro (h1 | rfl)
    · exact h1
    · exact hx
  next => simp

lemma mem_loadNames_aux (l : List Entry) (acc : List String) (x : String) :
    x ∈ l.foldl (fun s it => setAdd s it.filename) acc ↔
      x ∈ acc ∨ x ∈ l.map Entry.filename := by
  induction l generalizing acc with
  | nil => simp
  | cons a l ih =>
    simp only [List.foldl_cons, List.map_cons, List.mem_cons]
    rw [ih, mem_setAdd]
    tauto

lemma mem_loadNames {l : List Entry} {x : String} :
    x ∈ loadNames l ↔ x ∈ l.map Entry.filename := by
  unfold loadNames
  rw [mem_loadNames_aux]
  simp

/-- C9: flushing the ledger (the final save: sort by filename, write the
array) and loading the written file back reproduces exactly the set of
accepted identifiers — the reloaded `already_found_pdf_names` has the same
members as the ledger's name set. -/
theorem flush_load_roundtrip (s : LedgerState)
    (hinv : ∀ x, x ∈ s.names ↔ x ∈ s.collected.map Entry.filename) (x : String) :
    x ∈ (loadState (sortLedger s.collected) s.target).names ↔ x ∈ s.names := by
  rw [hinv x]
  show x ∈ loadNames (sortLedger s.collected) ↔ _
  rw [mem_loadNames]
  exact ((List.perm_insertionSort _ s.collected).map Entry.filename).mem_iff

theorem flush_load_roundtrip_witness :
    "a.pdf" ∈ (loadState (sortLedger [⟨"a.pdf", "t", 1000, "en"⟩]) 10).names ↔
      "a.pdf" ∈ ["a.pdf"] :=
  flush_load_roundtrip ⟨[⟨"a.pdf", "t", 1000, "en"⟩], ["a.pdf"], 1, 10⟩
    (fun _ => Iff.rfl) "a.pdf"

end PdfPipeline
